import Mathlib

/-!
# common-golang: connection pool and self-healing handle

A shallow embedding of

* `pkg/mongo/mongo.go`: the array-backed client pool (`init`, `connect`,
  `allocateToPool`, `getToPool`, `putBackPool`, `GetClient`, `ReleaseClient`);
* `pkg/postgres/postgres.go` and `pkg/sqlite3/sqlite3.go`: the cached
  connection handle (`InitConnect`, `CheckAndReturnConn`);
* `pkg/grpc/grpc.go`: the registry of service pools (`CreatePoll`,
  `GetGrpcHostByServiceName`, `LoadServicePool`);
* `pkg/code/code.go`: the base-54 code of an id (`base`, `code`, `Code`).

Go pointers to vendor objects (`*mongo.Client`, `*gorm.DB`) are `Option`s of
an opaque identity; the vendor calls that build them (`mongo.Connect`,
`gorm.Open`) are an oracle indexed by the number of calls already made, and
the state carries that call counter, so that "does not call connect" is the
statement that the counter is unchanged.  A run-time panic (index out of
range) is the result `none`.  The mutexes are not modelled: every function is
one atomic step, which is what the locks provide for the write paths.
-/

namespace mongo

/-- The constant `MaxConnection`. -/
abbrev MaxConnection : Nat := 10

/-- The constant `InitialConnection`. -/
abbrev InitialConnection : Nat := 1

/-- The struct `mongoData`.  `Client` is the `*mongo.Client` pointer: `none`
is nil, `some k` is the client object with identity `k`.  `pos` is a Go `int`
that the package only ever assigns an array index to. -/
structure mongoData where
  Client : Option Nat
  pos : Nat
  flag : Bool
deriving DecidableEq, Repr

/-- The struct `ClientPool`: the array `[MaxConnection]mongoData` and `size`,
a Go `int` that starts at zero and is only ever incremented. -/
structure ClientPool where
  clientList : Fin MaxConnection → mongoData
  size : Nat

/-- The package state: the global `cp` and the number of calls of `connect`
made so far. -/
structure World where
  cp : ClientPool
  dials : Nat

/-- The behaviour of `mongo.Connect`: the outcome of the call number `k`,
a client identity or an error message. -/
abbrev Dial := Nat → Except String Nat

/-- The zero value of `mongoData`. -/
def mongoData.zero : mongoData := ⟨none, 0, false⟩

/-- The state at program start, before `init`: `cp` is the zero value. -/
def World.start : World := ⟨⟨fun _ => mongoData.zero, 0⟩, 0⟩

/-- The read `cp.clientList[i]`; `none` is the index-out-of-range panic. -/
def ClientPool.get? (cp : ClientPool) (i : Nat) : Option mongoData :=
  if h : i < MaxConnection then some (cp.clientList ⟨i, h⟩) else none

/-- The write `cp.clientList[i].field = ...`, given as the change `f` of the
element; `none` is the index-out-of-range panic. -/
def ClientPool.modify? (cp : ClientPool) (i : Nat) (f : mongoData → mongoData) :
    Option ClientPool :=
  if h : i < MaxConnection then
    some { cp with clientList := Function.update cp.clientList ⟨i, h⟩ (f (cp.clientList ⟨i, h⟩)) }
  else none

/-- The function `connect`: `GetMongoConfig` never returns nil, so the result
is that of `mongo.Connect`: `(client, nil)` or `(nil, err)`. -/
def connect (env : Dial) (w : World) : (Option Nat × Option String) × World :=
  match env w.dials with
  | .ok c => ((some c, none), { w with dials := w.dials + 1 })
  | .error e => ((none, some e), { w with dials := w.dials + 1 })

/-- The method `allocateToPool`: the client field is assigned whatever
`connect` returned, also nil on failure; flag and pos are set on success only.
The result is the returned `err`. -/
def allocateToPool (env : Dial) (w : World) (pos : Nat) : Option (Option String × World) :=
  match connect env w with
  | ((client, err), w1) =>
    match w1.cp.modify? pos (fun d => { d with Client := client }) with
    | none => none
    | some cp1 =>
      match err with
      | some e => some (some e, { w1 with cp := cp1 })
      | none =>
        match cp1.modify? pos (fun d => { d with flag := true }) with
        | none => none
        | some cp2 =>
          match cp2.modify? pos (fun d => { d with pos := pos }) with
          | none => none
          | some cp3 => some (none, { w1 with cp := cp3 })

/-- The method `getToPool`. -/
def getToPool (cp : ClientPool) (pos : Nat) : Option ClientPool :=
  cp.modify? pos (fun d => { d with flag := true })

/-- The method `putBackPool`. -/
def putBackPool (cp : ClientPool) (pos : Nat) : Option ClientPool :=
  cp.modify? pos (fun d => { d with flag := false })

/-- The loop of `init`, `for size := 0; size < InitialConnection || size <
MaxConnection; size++`: the first argument is the number of iterations the
loop condition still allows, the second the loop variable.  The loop variable
shadows `cp.size`, which `init` never writes. -/
def initLoop (env : Dial) : Nat → Nat → World → Option World
  | 0, _, w => some w
  | n + 1, size, w =>
    match allocateToPool env w size with
    | none => none
    | some (some _, w1) => some w1
    | some (none, w1) =>
      match w1.cp.modify? size (fun d => { d with flag := false }) with
      | none => none
      | some cp1 => initLoop env n (size + 1) { w1 with cp := cp1 }

/-- The function `init`: the condition `size < InitialConnection || size <
MaxConnection` holds for exactly the values below `max InitialConnection
MaxConnection`. -/
def init (env : Dial) (w : World) : Option World :=
  initLoop env (max InitialConnection MaxConnection) 0 w

/-- The scan of `GetClient`, `for i := 1; i < cp.size; i++`: the first
argument is the number of iterations left, `cp.size - i`, the second is `i`.
`some (some i)` is the early return of `&cp.clientList[i]`, `some none` is
the loop running to its end, `none` a panic. -/
def scanLoop (cp : ClientPool) : Nat → Nat → Option (Option Nat)
  | 0, _ => some none
  | n + 1, i =>
    match cp.get? i with
    | none => none
    | some d => if d.flag == false then some (some i) else scanLoop cp n (i + 1)

/-- The function `GetClient`.  The returned pointer `&cp.clientList[i]` is
the index `i`; `(nil, err)` is `Except.error`. -/
def GetClient (env : Dial) (w : World) : Option (Except String Nat × World) :=
  match scanLoop w.cp (w.cp.size - 1) 1 with
  | none => none
  | some (some i) => some (.ok i, w)
  | some none =>
    if w.cp.size < MaxConnection then
      match allocateToPool env w w.cp.size with
      | none => none
      | some (some e, w1) => some (.error e, w1)
      | some (none, w1) =>
        some (.ok w1.cp.size, { w1 with cp := { w1.cp with size := w1.cp.size + 1 } })
    else some (.error "pooling is fulled", w)

/-- The function `ReleaseClient`; only `c.pos` of the handle is read. -/
def ReleaseClient (c : mongoData) (w : World) : Option World :=
  match putBackPool w.cp c.pos with
  | none => none
  | some cp1 => some { w with cp := cp1 }

/-- A `mongo.Connect` that always succeeds, call `k` giving client `k`. -/
def dialOk : Dial := fun k => .ok k

/-- A caller that makes `n` successive `GetClient` calls and releases nothing
in between: the results in call order and the state after the last call. -/
def acquireMany (env : Dial) : Nat → World → Option (List (Except String Nat) × World)
  | 0, w => some ([], w)
  | n + 1, w =>
    match GetClient env w with
    | none => none
    | some (r, w1) =>
      match acquireMany env n w1 with
      | none => none
      | some (rs, w2) => some (r :: rs, w2)

/-- A pool at capacity with every slot checked out. -/
def World.full : World := ⟨⟨fun i => ⟨some i.val, i.val, true⟩, 10⟩, 10⟩

/-- A pool of three slots, all checked out. -/
def World.three : World := ⟨⟨fun i => ⟨some i.val, i.val, decide (i.val < 3)⟩, 3⟩, 10⟩

/-- A `mongo.Connect` that always fails. -/
def dialDown : Dial := fun _ => .error "server selection timeout"

end mongo

namespace gorm

/-- The vendor object `gorm.DB`, of which the code reads the identity of the
pointer and the field `Error` (nil or an error message). -/
structure DB where
  id : Nat
  Error : Option String
deriving DecidableEq, Repr

/-- The vendor calls of `InitConnect`: `gorm.Open` on a data source name, in
the `InitConnect` call number `k`, gives a handle or an error; `db.Session`
gives the handle that is stored.  `db.Use` registers a plugin and its result
is discarded by the code. -/
structure Vendor where
  Open : String → Nat → Except String DB
  Session : DB → DB

end gorm

namespace postgres

/-- The struct `ConfigItem` of the postgres package. -/
structure ConfigItem where
  Host : String
  Port : String
  User : String
  Password : String
  Database : String
  Open : Int
  Idle : Int
deriving DecidableEq, Repr

/-- The struct `DbInfo`.  `DbConfig` is the pointer to the configuration
(`none` is nil, `some c` the pointed-to record, which `InitConnect` updates
in place); `Conn` is the `*gorm.DB`. -/
structure DbInfo where
  DbConfig : Option ConfigItem
  Conn : Option gorm.DB
deriving DecidableEq, Repr

/-- The receiver `info` together with the number of `InitConnect` calls made
so far. -/
structure World where
  info : DbInfo
  inits : Nat
deriving DecidableEq, Repr

/-- The data source name that `InitConnect` formats. -/
def dsn (dbConf : ConfigItem) : String :=
  "host=" ++ dbConf.Host ++ " user=" ++ dbConf.User ++ " password=" ++ dbConf.Password ++
    " dbname=" ++ dbConf.Database ++ " port=" ++ dbConf.Port ++
    " sslmode=disable TimeZone=Asia/Shanghai"

/-- The method `InitConnect`; `none` is the nil dereference of `DbConfig`. -/
def InitConnect (V : gorm.Vendor) (w : World) : Option World :=
  match w.info.DbConfig with
  | none => none
  | some dbConf =>
    match V.Open (dsn dbConf) w.inits with
    | .error _ => some ⟨{ w.info with Conn := none }, w.inits + 1⟩
    | .ok db =>
      let c1 := if dbConf.Idle = 0 then { dbConf with Idle := 5 } else dbConf
      let c2 := if c1.Open = 0 then { c1 with Open := 20 } else c1
      some ⟨⟨some c2, some (V.Session db)⟩, w.inits + 1⟩

/-- The predicate `info.Conn == nil || info.Conn.Error != nil`. -/
def absentOrBroken (conn : Option gorm.DB) : Bool :=
  match conn with
  | none => true
  | some db => db.Error.isSome

/-- The method `CheckAndReturnConn`; the result is the returned `*gorm.DB`. -/
def CheckAndReturnConn (V : gorm.Vendor) (w : World) : Option (Option gorm.DB × World) :=
  let r := if w.info.Conn = none then
      (if absentOrBroken w.info.Conn then InitConnect V w else some w)
    else some w
  match r with
  | none => none
  | some w1 => if w1.info.Conn = none then some (none, w1) else some (w1.info.Conn, w1)

end postgres

namespace sqlite3

/-- The struct `ConfigItem` of the sqlite3 package; the field `Type` is
written `Type_`. -/
structure ConfigItem where
  Type_ : String
  Path : String
  User : String
  Password : String
  Open : Int
  Idle : Int
deriving DecidableEq, Repr

/-- The struct `DbInfo`.  `DbConfig` is the pointer to the configuration
(`none` is nil, `some c` the pointed-to record, which `InitConnect` updates
in place); `Conn` is the `*gorm.DB`. -/
structure DbInfo where
  DbConfig : Option ConfigItem
  Conn : Option gorm.DB
deriving DecidableEq, Repr

/-- The receiver `info` together with the number of `InitConnect` calls made
so far. -/
structure World where
  info : DbInfo
  inits : Nat
deriving DecidableEq, Repr

/-- The data source name that `InitConnect` formats. -/
def dsn (dbConf : ConfigItem) : String :=
  let d := dbConf.Type_ ++ ":" ++ dbConf.Path ++ "?cache=shared&mode=rwc"
  if dbConf.User.utf8ByteSize > 0 then
    d ++ "&_auth&_auth_user=" ++ dbConf.User ++ "&_auth_pass=" ++ dbConf.Password
  else d

/-- The method `InitConnect`; `none` is the nil dereference of `DbConfig`. -/
def InitConnect (V : gorm.Vendor) (w : World) : Option World :=
  match w.info.DbConfig with
  | none => none
  | some dbConf =>
    match V.Open (dsn dbConf) w.inits with
    | .error _ => some ⟨{ w.info with Conn := none }, w.inits + 1⟩
    | .ok db =>
      let c1 := if dbConf.Idle = 0 then { dbConf with Idle := 5 } else dbConf
      let c2 := if c1.Open = 0 then { c1 with Open := 20 } else c1
      some ⟨⟨some c2, some (V.Session db)⟩, w.inits + 1⟩

/-- The predicate `info.Conn == nil || info.Conn.Error != nil`. -/
def absentOrBroken (conn : Option gorm.DB) : Bool :=
  match conn with
  | none => true
  | some db => db.Error.isSome

/-- The method `CheckAndReturnConn`; the result is the returned `*gorm.DB`. -/
def CheckAndReturnConn (V : gorm.Vendor) (w : World) : Option (Option gorm.DB × World) :=
  let r := if w.info.Conn = none then
      (if absentOrBroken w.info.Conn then InitConnect V w else some w)
    else some w
  match r with
  | none => none
  | some w1 => if w1.info.Conn = none then some (none, w1) else some (w1.info.Conn, w1)

end sqlite3

namespace gorm

/-- A vendor whose `gorm.Open` always fails. -/
def Vendor.down : Vendor := ⟨fun _ _ => .error "connection refused", fun db => db⟩

/-- A vendor whose `gorm.Open` succeeds, call `k` giving the handle `2 * k`,
and whose `Session` of the handle `n` is the handle `n + 1`. -/
def Vendor.up : Vendor := ⟨fun _ k => .ok ⟨2 * k, none⟩, fun db => ⟨db.id + 1, db.Error⟩⟩

end gorm

namespace postgres

/-- The configuration that `getMysqlConfig` returns. -/
def getMysqlConfig : ConfigItem := ⟨"127.0.0.1", "3306", "root", "password", "123456", 0, 0⟩

end postgres

namespace sqlite3

/-- The configuration that `getDbConfig` returns. -/
def getDbConfig : ConfigItem := ⟨"file", "db.sqlite3", "", "", 0, 0⟩

end sqlite3

namespace mongo

/-- The pool states that a run of the program passes through, for a given
behaviour `env` of `mongo.Connect`: the state left by `init` at program
start, and the state after any `GetClient` or `ReleaseClient` call that
returns.  The handle given to `ReleaseClient` is any `mongoData` value. -/
inductive Reach (env : Dial) : World → Prop
  | init {w : World} : init env World.start = some w → Reach env w
  | get {w w1 : World} {r : Except String Nat} :
      Reach env w → GetClient env w = some (r, w1) → Reach env w1
  | release {w w1 : World} (c : mongoData) :
      Reach env w → ReleaseClient c w = some w1 → Reach env w1

/-- The number of slots of the array that hold a client (a non-nil
`Client`). -/
def ClientPool.allocated (cp : ClientPool) : Nat :=
  ((List.finRange MaxConnection).filter (fun j => (cp.clientList j).Client.isSome)).length

end mongo

namespace grpc

/-- The struct `ConfigItem` of the grpc package. -/
structure ConfigItem where
  Name : String
  Address : String
  Init : Int
  Idle : Int
  Capacity : Int
deriving DecidableEq, Repr

/-- The struct `ServiceGrpcPoolConfig`; `idleTimeout` is a `time.Duration`,
a number of nanoseconds. -/
structure ServiceGrpcPoolConfig where
  serviceName : String
  address : String
  init : Int
  idle : Int
  capacity : Int
  idleTimeout : Int
deriving DecidableEq, Repr

/-- The function `NewServiceGrpcConfig`. -/
def NewServiceGrpcConfig (name address : String) (idleTime : Int) (init idle capacity : Int) :
    ServiceGrpcPoolConfig :=
  ⟨name, address, init, idle, capacity, idleTime⟩

/-- The behaviour of `pool.NewChannelPool`, which `CreatePoll` calls and whose
package is outside the files embedded here: for the configuration of the pool
and the number `k` of the call, a pool (a non-nil `pool.Pool`, identified by
a number, with a nil error) or an error (with a nil pool). -/
abbrev Factory := ServiceGrpcPoolConfig → Nat → Except String Nat

/-- The package state: the map `grpcServiceMap`, whose values are `pool.Pool`
interface values (`none` is the nil interface, which fails the type assertion
`v.(pool.Pool)`), and the `CreatePoll` calls made so far, each with its
configuration and outcome. -/
structure World where
  grpcServiceMap : String → Option (Option Nat)
  calls : List (ServiceGrpcPoolConfig × Except String Nat)

/-- The state at program start: `make(map[string]pool.Pool)`, no call made. -/
def World.start : World := ⟨fun _ => none, []⟩

/-- The constant `time.Second`. -/
def Second : Int := 1000000000

/-- The function `CreatePoll`: the dial options and the factory and close
closures are handed to `pool.NewChannelPool` with the fields of `config`. -/
def CreatePoll (F : Factory) (config : ServiceGrpcPoolConfig) (w : World) :
    Except String Nat × World :=
  (F config w.calls.length, { w with calls := w.calls ++ [(config, F config w.calls.length)] })

/-- The map `allGrpc` as `init` fills it. -/
def allGrpc : List (String × ConfigItem) := [("user", ⟨"user", "host:port", 5, 5, 5⟩)]

/-- The function `GetGrpcHostByServiceName`, over the content of the map
`allGrpc` given as its list of entries. -/
def GetGrpcHostByServiceName (all : List (String × ConfigItem)) (name : String) :
    Option ConfigItem :=
  if all.length = 0 then none
  else
    match all.lookup name with
    | some item => some item
    | none => none

/-- The block that `LoadServicePool` runs twice, before and after taking the
lock: `if v, ok := grpcServiceMap[serviceName]; ok` with the type assertion;
`some p` is the early `return p, nil`, and an entry that fails the assertion
is deleted. -/
def lookupValid (serviceName : String) (w : World) : Option Nat × World :=
  match w.grpcServiceMap serviceName with
  | some (some p) => (some p, w)
  | some none => (none, { w with grpcServiceMap := Function.update w.grpcServiceMap serviceName none })
  | none => (none, w)

/-- The function `LoadServicePool`; the result is the pair `(pool.Pool,
error)`.  The `log.Warn` calls write a log line and nothing else. -/
def LoadServicePool (F : Factory) (all : List (String × ConfigItem)) (serviceName : String)
    (w : World) : (Option Nat × Option String) × World :=
  match lookupValid serviceName w with
  | (some p, w1) => ((some p, none), w1)
  | (none, w1) =>
    match lookupValid serviceName w1 with
    | (some p, w2) => ((some p, none), w2)
    | (none, w2) =>
      match GetGrpcHostByServiceName all serviceName with
      | none => ((none, some "get grpc config error"), w2)
      | some value =>
        match CreatePoll F (NewServiceGrpcConfig serviceName value.Address Second value.Init
            value.Idle value.Capacity) w2 with
        | (.error err, w3) => ((none, some err), w3)
        | (.ok p, w3) =>
          let m := Function.update w3.grpcServiceMap serviceName (some (some p))
          (((m serviceName).join, none), { w3 with grpcServiceMap := m })

/-- A caller that calls `LoadServicePool` for each name of the list, one call
after the other: the state after the last call. -/
def loadAll (F : Factory) (all : List (String × ConfigItem)) : List String → World → World
  | [], w => w
  | n :: ns, w => loadAll F all ns (LoadServicePool F all n w).2

/-- The number of `CreatePoll` calls in the log that were made for the
service `name` and returned a pool. -/
def successes (name : String) (calls : List (ServiceGrpcPoolConfig × Except String Nat)) : Nat :=
  (calls.filter (fun c => c.1.serviceName == name &&
    (match c.2 with | .ok _ => true | .error _ => false))).length

/-- A registry whose entry for "user" is the nil interface value. -/
def World.nilUser : World := ⟨fun n => if n = "user" then some none else none, []⟩

/-- A `pool.NewChannelPool` that always succeeds, call `k` giving pool `k`. -/
def factoryOk : Factory := fun _ k => .ok k

end grpc

namespace code

/-- The slice `base`. -/
def base : List String := ["2", "3", "4", "5", "6", "7", "8", "9",
  "a", "A", "b", "B", "c", "C", "d", "D", "e", "E", "f", "F", "g", "G", "h", "H", "j", "J",
  "k", "K", "m", "M", "n", "N", "p", "P", "q", "Q", "r", "R", "s", "S", "t", "T", "u", "U",
  "v", "V", "w", "W", "x", "X", "y", "Y", "z", "Z"]

/-- The index expression `base[x]` for an `int64` `x`; `none` is the
index-out-of-range panic. -/
def baseAt (x : Int) : Option String :=
  if 0 ≤ x then base.get? x.toNat else none

set_option linter.dupNamespace false in
/-- The function `code`.  Go's `%` and `/` on `int64` truncate toward zero
(`Int.tmod`, `Int.tdiv`); with the constant divisor 54 neither overflows.
`none` is a panic, which the recursive call passes on. -/
def code (id : Int) (cc : String) : Option String :=
  let x := Int.tmod id 54
  match baseAt x with
  | none => none
  | some n =>
    if Int.tdiv id 54 = 0 then some (n ++ cc)
    else
      match code (Int.tdiv id 54) cc with
      | none => none
      | some s => some (s ++ n ++ cc)
termination_by id.natAbs
decreasing_by
  rename_i hne
  have h1 : (Int.tdiv id 54).natAbs = id.natAbs / 54 := Int.natAbs_tdiv id 54
  have h2 : (Int.tdiv id 54).natAbs ≠ 0 := fun h0 => hne (Int.natAbs_eq_zero.mp h0)
  omega

/-- The function `Code`. -/
def Code (id : Int) : Option String := code id ""

/-- The characters of `base`, in order. -/
def symbols : List Char := ['2', '3', '4', '5', '6', '7', '8', '9',
  'a', 'A', 'b', 'B', 'c', 'C', 'd', 'D', 'e', 'E', 'f', 'F', 'g', 'G', 'h', 'H', 'j', 'J',
  'k', 'K', 'm', 'M', 'n', 'N', 'p', 'P', 'q', 'Q', 'r', 'R', 's', 'S', 't', 'T', 'u', 'U',
  'v', 'V', 'w', 'W', 'x', 'X', 'y', 'Y', 'z', 'Z']

/-- The most-significant-first base-54 digit string of `n`, with the
characters of `base` as digits; the string of 0 is the single digit zero. -/
def digitString (n : Nat) : List Char :=
  if n / 54 = 0 then [symbols.getD (n % 54) '2']
  else digitString (n / 54) ++ [symbols.getD (n % 54) '2']
termination_by n
decreasing_by omega

end code

/-! ## The client pool -/

namespace mongo

theorem modify?_lt (cp : ClientPool) (i : Nat) (f : mongoData → mongoData)
    (h : i < MaxConnection) :
    cp.modify? i f =
      some { cp with clientList := Function.update cp.clientList ⟨i, h⟩ (f (cp.clientList ⟨i, h⟩)) } := by
  simp [ClientPool.modify?, h]

theorem get?_lt (cp : ClientPool) (i : Nat) (h : i < MaxConnection) :
    cp.get? i = some (cp.clientList ⟨i, h⟩) := by
  simp [ClientPool.get?, h]

/-- The scan runs to its end when every slot it visits is busy. -/
theorem scanLoop_busy (cp : ClientPool) (n : Nat) : ∀ i : Nat, i + n ≤ MaxConnection →
    (∀ j : Fin MaxConnection, i ≤ j.val → j.val < i + n → (cp.clientList j).flag = true) →
    scanLoop cp n i = some none := by
  induction n with
  | zero => intro i _ _; rfl
  | succ n ih =>
    intro i hle hb
    have hi : i < MaxConnection := by omega
    have hflag := hb ⟨i, hi⟩ (le_refl i) (by simp)
    have hrest := ih (i + 1) (by omega) (fun j h1 h2 => hb j (by omega) (by omega))
    simp [scanLoop, get?_lt cp i hi, hflag, hrest]

/-- The successful `allocateToPool` at an index in range. -/
theorem allocateToPool_ok (env : Dial) (w : World) (pos c : Nat) (hp : pos < MaxConnection)
    (hc : env w.dials = .ok c) :
    allocateToPool env w pos =
      some (none, ⟨⟨Function.update w.cp.clientList ⟨pos, hp⟩ ⟨some c, pos, true⟩, w.cp.size⟩,
        w.dials + 1⟩) := by
  simp [allocateToPool, connect, hc, modify?_lt _ pos _ hp]

/-- The failing `allocateToPool` at an index in range: the client field is
overwritten with nil, nothing else changes. -/
theorem allocateToPool_error (env : Dial) (w : World) (pos : Nat) (e : String)
    (hp : pos < MaxConnection) (hc : env w.dials = .error e) :
    allocateToPool env w pos =
      some (some e, ⟨⟨Function.update w.cp.clientList ⟨pos, hp⟩
        { w.cp.clientList ⟨pos, hp⟩ with Client := none }, w.cp.size⟩, w.dials + 1⟩) := by
  simp [allocateToPool, connect, hc, modify?_lt _ pos _ hp]

/-- C1, at a state the program reaches (`init`, two `GetClient` calls, the
release of slot 1): the scan of `GetClient` returns slot 1, which was free,
and leaves it free, because `getToPool` is never called; the next `GetClient`,
with no release in between, returns slot 1 again. -/
theorem GetClient_scan_leaves_slot_free :
    ∃ w0 w1 w2 w3 w4 w5, init dialOk World.start = some w0
      ∧ GetClient dialOk w0 = some (.ok 0, w1)
      ∧ GetClient dialOk w1 = some (.ok 1, w2)
      ∧ w2.cp.get? 1 = some ⟨some 11, 1, true⟩
      ∧ ReleaseClient ⟨some 11, 1, true⟩ w2 = some w3
      ∧ GetClient dialOk w3 = some (.ok 1, w4)
      ∧ w4.cp.get? 1 = some ⟨some 11, 1, false⟩
      ∧ GetClient dialOk w4 = some (.ok 1, w5) :=
  ⟨_, _, _, _, _, _, rfl, rfl, rfl, rfl, rfl, rfl, rfl, rfl⟩

/-- C2, at a state the program reaches (`init`, one `GetClient`, the release
of slot 0): slot 0 is free and lies below `size = 1`, yet the scan starts at
index 1, so `GetClient` calls `connect` and returns the new slot 1. -/
theorem GetClient_skips_slot_zero :
    ∃ w0 w1 w2 w3, init dialOk World.start = some w0
      ∧ GetClient dialOk w0 = some (.ok 0, w1)
      ∧ ReleaseClient ⟨some 10, 0, true⟩ w1 = some w2
      ∧ w2.cp.size = 1
      ∧ w2.cp.get? 0 = some ⟨some 10, 0, false⟩
      ∧ GetClient dialOk w2 = some (.ok 1, w3)
      ∧ w3.dials = w2.dials + 1
      ∧ w3.cp.get? 1 = some ⟨some 11, 1, true⟩
      ∧ w3.cp.size = 2 :=
  ⟨_, _, _, _, rfl, rfl, rfl, rfl, rfl, rfl, rfl, rfl, rfl⟩

/-- C3, from the pool of size 0 that `init` leaves: ten `GetClient` calls
succeed with slots 0 to 9 and the eleventh fails with "pooling is fulled";
after the release of slot 0 the following `GetClient` fails with the same
error, although slot 0 is free. -/
theorem GetClient_after_release_of_slot_zero :
    ∃ w0 w10 w11 w12 w13, init dialOk World.start = some w0
      ∧ w0.cp.size = 0
      ∧ acquireMany dialOk 10 w0 = some ([.ok 0, .ok 1, .ok 2, .ok 3, .ok 4, .ok 5, .ok 6,
          .ok 7, .ok 8, .ok 9], w10)
      ∧ GetClient dialOk w10 = some (.error "pooling is fulled", w11)
      ∧ w11.cp.get? 0 = some ⟨some 10, 0, true⟩
      ∧ ReleaseClient ⟨some 10, 0, true⟩ w11 = some w12
      ∧ w12.cp.get? 0 = some ⟨some 10, 0, false⟩
      ∧ GetClient dialOk w12 = some (.error "pooling is fulled", w13)
      ∧ w13.dials = w12.dials :=
  ⟨_, _, _, _, _, rfl, rfl, rfl, rfl, rfl, rfl, rfl, rfl, rfl⟩

/-- C4: at `size = MaxConnection` with every slot busy, `GetClient` returns
the error "pooling is fulled" and the state, the count of `connect` calls
included, is the one it started from. -/
theorem GetClient_exhausted (env : Dial) (w : World) (hs : w.cp.size = MaxConnection)
    (hb : ∀ j : Fin MaxConnection, (w.cp.clientList j).flag = true) :
    GetClient env w = some (.error "pooling is fulled", w) := by
  have hs10 : w.cp.size = 10 := hs
  have hscan : scanLoop w.cp (w.cp.size - 1) 1 = some none :=
    scanLoop_busy w.cp _ 1 (by omega) (fun j _ _ => hb j)
  have hnot : ¬ w.cp.size < MaxConnection := by omega
  simp only [GetClient, hscan, hnot, if_false]

theorem GetClient_exhausted_witness :
    World.full.cp.size = MaxConnection
      ∧ (∀ j : Fin MaxConnection, (World.full.cp.clientList j).flag = true)
      ∧ GetClient dialOk World.full = some (.error "pooling is fulled", World.full) :=
  ⟨rfl, fun _ => rfl, GetClient_exhausted dialOk World.full rfl (fun _ => rfl)⟩

/-- C5: below capacity with every existing slot busy and `connect` giving the
client `c`, `GetClient` returns the slot at the old size; that slot holds
`c`, has `pos` equal to the old size and is busy; the size grows by one,
`connect` was called once, and every other slot is as before. -/
theorem GetClient_grows (env : Dial) (w : World) (c : Nat) (hs : w.cp.size < MaxConnection)
    (hb : ∀ j : Fin MaxConnection, j.val < w.cp.size → (w.cp.clientList j).flag = true)
    (hc : env w.dials = .ok c) :
    ∃ w1, GetClient env w = some (.ok w.cp.size, w1)
      ∧ w1.cp.size = w.cp.size + 1
      ∧ w1.dials = w.dials + 1
      ∧ w1.cp.get? w.cp.size = some ⟨some c, w.cp.size, true⟩
      ∧ ∀ j : Fin MaxConnection, j.val ≠ w.cp.size → w1.cp.clientList j = w.cp.clientList j := by
  have hs10 : w.cp.size < 10 := hs
  have hscan : scanLoop w.cp (w.cp.size - 1) 1 = some none :=
    scanLoop_busy w.cp _ 1 (by omega) (fun j _ h => hb j (by omega))
  refine ⟨⟨⟨Function.update w.cp.clientList ⟨w.cp.size, hs⟩ ⟨some c, w.cp.size, true⟩,
    w.cp.size + 1⟩, w.dials + 1⟩, ?_, ?_, ?_, ?_, ?_⟩
  · simp only [GetClient, hscan, hs, if_true, allocateToPool_ok env w _ c hs hc]
  · rfl
  · rfl
  · simp [get?_lt _ _ hs]
  · intro j hj
    have hne : j ≠ ⟨w.cp.size, hs⟩ := fun h => hj (by rw [h])
    simp [Function.update_noteq hne]

theorem GetClient_grows_witness :
    World.three.cp.size < MaxConnection
      ∧ ∃ w1, GetClient dialOk World.three = some (.ok World.three.cp.size, w1)
      ∧ w1.cp.size = World.three.cp.size + 1
      ∧ w1.dials = World.three.dials + 1
      ∧ w1.cp.get? World.three.cp.size = some ⟨some 10, World.three.cp.size, true⟩
      ∧ ∀ j : Fin MaxConnection, j.val ≠ World.three.cp.size →
          w1.cp.clientList j = World.three.cp.clientList j :=
  ⟨by decide, GetClient_grows dialOk World.three 10 (by decide)
    (fun j hj => by
      have h3 : j.val < 3 := hj
      simp [World.three, h3]) rfl⟩

/-- C6: when the scan finds nothing, the pool is below capacity and `connect`
fails with `e`, `GetClient` returns `e` and no slot; the size and every
slot's flag and pos are as before.  (The client field of the slot at index
`size` is overwritten with nil; the client of every other slot is kept.) -/
theorem GetClient_connect_fails (env : Dial) (w : World) (e : String)
    (hscan : scanLoop w.cp (w.cp.size - 1) 1 = some none)
    (hs : w.cp.size < MaxConnection) (hc : env w.dials = .error e) :
    ∃ w1, GetClient env w = some (.error e, w1)
      ∧ w1.cp.size = w.cp.size
      ∧ (∀ j : Fin MaxConnection, (w1.cp.clientList j).flag = (w.cp.clientList j).flag
          ∧ (w1.cp.clientList j).pos = (w.cp.clientList j).pos)
      ∧ (w1.cp.clientList ⟨w.cp.size, hs⟩).Client = none
      ∧ ∀ j : Fin MaxConnection, j.val ≠ w.cp.size →
          w1.cp.clientList j = w.cp.clientList j := by
  refine ⟨⟨⟨Function.update w.cp.clientList ⟨w.cp.size, hs⟩
    { w.cp.clientList ⟨w.cp.size, hs⟩ with Client := none }, w.cp.size⟩, w.dials + 1⟩,
    ?_, ?_, ?_, ?_, ?_⟩
  · simp only [GetClient, hscan, hs, if_true, allocateToPool_error env w _ e hs hc]
  · rfl
  · intro j
    by_cases hj : j = ⟨w.cp.size, hs⟩
    · subst hj; simp
    · simp [Function.update_noteq hj]
  · simp
  · intro j hj
    have hne : j ≠ ⟨w.cp.size, hs⟩ := fun h => hj (by rw [h])
    simp [Function.update_noteq hne]

theorem GetClient_connect_fails_witness :
    scanLoop World.three.cp (World.three.cp.size - 1) 1 = some none
      ∧ ∃ w1, GetClient dialDown World.three = some (.error "server selection timeout", w1)
      ∧ w1.cp.size = World.three.cp.size
      ∧ (∀ j : Fin MaxConnection,
          (w1.cp.clientList j).flag = (World.three.cp.clientList j).flag
          ∧ (w1.cp.clientList j).pos = (World.three.cp.clientList j).pos)
      ∧ (w1.cp.clientList ⟨World.three.cp.size, by decide⟩).Client = none
      ∧ ∀ j : Fin MaxConnection, j.val ≠ World.three.cp.size →
          w1.cp.clientList j = World.three.cp.clientList j :=
  ⟨rfl, GetClient_connect_fails dialDown World.three "server selection timeout" rfl
    (by decide) rfl⟩

/-- C7: for a handle with `pos` below `MaxConnection`, `ReleaseClient` clears
the flag of the slot at `pos`; the size, the count of `connect` calls, the
client and pos of every slot and the flag of every other slot are as before;
nothing is checked, and when the slot was already free the state is the one
it started from. -/
theorem ReleaseClient_frame (c : mongoData) (w : World) (hp : c.pos < MaxConnection) :
    ∃ w1, ReleaseClient c w = some w1
      ∧ w1.cp.size = w.cp.size
      ∧ w1.dials = w.dials
      ∧ (w1.cp.clientList ⟨c.pos, hp⟩).flag = false
      ∧ (∀ j : Fin MaxConnection, (w1.cp.clientList j).Client = (w.cp.clientList j).Client
          ∧ (w1.cp.clientList j).pos = (w.cp.clientList j).pos)
      ∧ (∀ j : Fin MaxConnection, j.val ≠ c.pos →
          (w1.cp.clientList j).flag = (w.cp.clientList j).flag)
      ∧ ((w.cp.clientList ⟨c.pos, hp⟩).flag = false → w1 = w) := by
  refine ⟨⟨⟨Function.update w.cp.clientList ⟨c.pos, hp⟩
    { w.cp.clientList ⟨c.pos, hp⟩ with flag := false }, w.cp.size⟩, w.dials⟩,
    ?_, ?_, ?_, ?_, ?_, ?_, ?_⟩
  · simp only [ReleaseClient, putBackPool, modify?_lt _ _ _ hp]
  · rfl
  · rfl
  · simp
  · intro j
    by_cases hj : j = ⟨c.pos, hp⟩
    · subst hj; simp
    · simp [Function.update_noteq hj]
  · intro j hj
    have hne : j ≠ ⟨c.pos, hp⟩ := fun h => hj (by rw [h])
    simp [Function.update_noteq hne]
  · intro hfree
    have hslot : ({ w.cp.clientList ⟨c.pos, hp⟩ with flag := false } : mongoData)
        = w.cp.clientList ⟨c.pos, hp⟩ := by
      cases hd : w.cp.clientList ⟨c.pos, hp⟩ with
      | mk cl ps fl =>
        rw [hd] at hfree
        simp only at hfree
        simp [hfree]
    simp only [hslot, Function.update_eq_self]

theorem ReleaseClient_frame_witness :
    ∃ w1, ReleaseClient ⟨some 1, 1, true⟩ World.full = some w1
      ∧ w1.cp.size = World.full.cp.size
      ∧ w1.dials = World.full.dials
      ∧ (w1.cp.clientList ⟨1, by decide⟩).flag = false
      ∧ (∀ j : Fin MaxConnection,
          (w1.cp.clientList j).Client = (World.full.cp.clientList j).Client
          ∧ (w1.cp.clientList j).pos = (World.full.cp.clientList j).pos)
      ∧ (∀ j : Fin MaxConnection, j.val ≠ 1 →
          (w1.cp.clientList j).flag = (World.full.cp.clientList j).flag)
      ∧ ((World.full.cp.clientList ⟨1, by decide⟩).flag = false → w1 = World.full) :=
  ReleaseClient_frame ⟨some 1, 1, true⟩ World.full (by decide)

end mongo

/-! ## The cached connection handle -/

namespace postgres

theorem CheckAndReturnConn_present_pg (V : gorm.Vendor) (w : World) (db : gorm.DB)
    (h : w.info.Conn = some db) : CheckAndReturnConn V w = some (some db, w) := by
  simp [CheckAndReturnConn, h]

theorem CheckAndReturnConn_open_fails_pg (V : gorm.Vendor) (w : World) (conf : ConfigItem)
    (e : String) (hn : w.info.Conn = none) (hconf : w.info.DbConfig = some conf)
    (ho : V.Open (dsn conf) w.inits = .error e) :
    CheckAndReturnConn V w = some (none, ⟨⟨some conf, none⟩, w.inits + 1⟩) := by
  simp [CheckAndReturnConn, InitConnect, absentOrBroken, hn, hconf, ho]

theorem CheckAndReturnConn_open_ok_pg (V : gorm.Vendor) (w : World) (conf : ConfigItem)
    (db : gorm.DB) (hn : w.info.Conn = none) (hconf : w.info.DbConfig = some conf)
    (ho : V.Open (dsn conf) w.inits = .ok db) :
    ∃ conf1, CheckAndReturnConn V w =
      some (some (V.Session db), ⟨⟨some conf1, some (V.Session db)⟩, w.inits + 1⟩) := by
  simp [CheckAndReturnConn, InitConnect, absentOrBroken, hn, hconf, ho]

theorem CheckAndReturnConn_absent_inits_pg (V : gorm.Vendor) (w : World) (conf : ConfigItem)
    (hn : w.info.Conn = none) (hconf : w.info.DbConfig = some conf) :
    ∃ r w1, CheckAndReturnConn V w = some (r, w1) ∧ w1.inits = w.inits + 1 := by
  cases ho : V.Open (dsn conf) w.inits with
  | error e => exact ⟨_, _, CheckAndReturnConn_open_fails_pg V w conf e hn hconf ho, rfl⟩
  | ok db =>
    obtain ⟨c1, hc1⟩ := CheckAndReturnConn_open_ok_pg V w conf db hn hconf ho
    exact ⟨_, _, hc1, rfl⟩

end postgres

namespace sqlite3

theorem CheckAndReturnConn_present_sqlite (V : gorm.Vendor) (w : World) (db : gorm.DB)
    (h : w.info.Conn = some db) : CheckAndReturnConn V w = some (some db, w) := by
  simp [CheckAndReturnConn, h]

theorem CheckAndReturnConn_open_fails_sqlite (V : gorm.Vendor) (w : World) (conf : ConfigItem)
    (e : String) (hn : w.info.Conn = none) (hconf : w.info.DbConfig = some conf)
    (ho : V.Open (dsn conf) w.inits = .error e) :
    CheckAndReturnConn V w = some (none, ⟨⟨some conf, none⟩, w.inits + 1⟩) := by
  simp [CheckAndReturnConn, InitConnect, absentOrBroken, hn, hconf, ho]

theorem CheckAndReturnConn_open_ok_sqlite (V : gorm.Vendor) (w : World) (conf : ConfigItem)
    (db : gorm.DB) (hn : w.info.Conn = none) (hconf : w.info.DbConfig = some conf)
    (ho : V.Open (dsn conf) w.inits = .ok db) :
    ∃ conf1, CheckAndReturnConn V w =
      some (some (V.Session db), ⟨⟨some conf1, some (V.Session db)⟩, w.inits + 1⟩) := by
  simp [CheckAndReturnConn, InitConnect, absentOrBroken, hn, hconf, ho]

theorem CheckAndReturnConn_absent_inits_sqlite (V : gorm.Vendor) (w : World) (conf : ConfigItem)
    (hn : w.info.Conn = none) (hconf : w.info.DbConfig = some conf) :
    ∃ r w1, CheckAndReturnConn V w = some (r, w1) ∧ w1.inits = w.inits + 1 := by
  cases ho : V.Open (dsn conf) w.inits with
  | error e => exact ⟨_, _, CheckAndReturnConn_open_fails_sqlite V w conf e hn hconf ho, rfl⟩
  | ok db =>
    obtain ⟨c1, hc1⟩ := CheckAndReturnConn_open_ok_sqlite V w conf db hn hconf ho
    exact ⟨_, _, hc1, rfl⟩

end sqlite3

/-- The defaults that a successful `InitConnect` writes into the pointed-to
postgres configuration are part of the resulting state; the handle stored and
returned is `Session` of the opened one. -/
theorem postgres.CheckAndReturnConn_after_open_pg (V : gorm.Vendor) (w : postgres.World)
    (conf : postgres.ConfigItem) (db : gorm.DB) (hn : w.info.Conn = none)
    (hconf : w.info.DbConfig = some conf) (ho : V.Open (postgres.dsn conf) w.inits = .ok db) :
    ∃ w1, postgres.CheckAndReturnConn V w = some (some (V.Session db), w1)
      ∧ w1.info.Conn = some (V.Session db) ∧ w1.inits = w.inits + 1 := by
  obtain ⟨c1, hc1⟩ := postgres.CheckAndReturnConn_open_ok_pg V w conf db hn hconf ho
  exact ⟨_, hc1, rfl, rfl⟩

theorem sqlite3.CheckAndReturnConn_after_open_sqlite (V : gorm.Vendor) (w : sqlite3.World)
    (conf : sqlite3.ConfigItem) (db : gorm.DB) (hn : w.info.Conn = none)
    (hconf : w.info.DbConfig = some conf) (ho : V.Open (sqlite3.dsn conf) w.inits = .ok db) :
    ∃ w1, sqlite3.CheckAndReturnConn V w = some (some (V.Session db), w1)
      ∧ w1.info.Conn = some (V.Session db) ∧ w1.inits = w.inits + 1 := by
  obtain ⟨c1, hc1⟩ := sqlite3.CheckAndReturnConn_open_ok_sqlite V w conf db hn hconf ho
  exact ⟨_, hc1, rfl, rfl⟩

/-- C8, in both packages: with a cached handle that is present and carries an
error, `CheckAndReturnConn` returns that very handle and the state, the count
of `InitConnect` calls included, is unchanged: the outer test `info.Conn ==
nil` keeps the inner test of `Conn.Error` from ever being reached. -/
theorem CheckAndReturnConn_returns_broken_conn (V : gorm.Vendor) (id k : Nat) (e : String)
    (pc : Option postgres.ConfigItem) (sc : Option sqlite3.ConfigItem) :
    postgres.CheckAndReturnConn V ⟨⟨pc, some ⟨id, some e⟩⟩, k⟩
        = some (some ⟨id, some e⟩, ⟨⟨pc, some ⟨id, some e⟩⟩, k⟩)
      ∧ sqlite3.CheckAndReturnConn V ⟨⟨sc, some ⟨id, some e⟩⟩, k⟩
        = some (some ⟨id, some e⟩, ⟨⟨sc, some ⟨id, some e⟩⟩, k⟩) :=
  ⟨postgres.CheckAndReturnConn_present_pg V _ _ rfl,
    sqlite3.CheckAndReturnConn_present_sqlite V _ _ rfl⟩

/-- C9, in both packages: with no cached handle (and a configuration to open
with), `CheckAndReturnConn` calls `InitConnect` once.  When `gorm.Open` fails
the result is nil, `Conn` is still nil, the configuration is untouched, and
the next `CheckAndReturnConn` calls `InitConnect` again; when it succeeds the
new handle is returned and stored in `Conn`. -/
theorem CheckAndReturnConn_absent_conn (V : gorm.Vendor)
    (wp : postgres.World) (cfp : postgres.ConfigItem)
    (ws : sqlite3.World) (cfs : sqlite3.ConfigItem)
    (hp : wp.info.Conn = none) (hpc : wp.info.DbConfig = some cfp)
    (hs : ws.info.Conn = none) (hsc : ws.info.DbConfig = some cfs) :
    (match V.Open (postgres.dsn cfp) wp.inits with
      | .error _ =>
        postgres.CheckAndReturnConn V wp = some (none, ⟨⟨some cfp, none⟩, wp.inits + 1⟩)
          ∧ ∃ r w2, postgres.CheckAndReturnConn V ⟨⟨some cfp, none⟩, wp.inits + 1⟩ = some (r, w2)
            ∧ w2.inits = wp.inits + 2
      | .ok db =>
        ∃ w1, postgres.CheckAndReturnConn V wp = some (some (V.Session db), w1)
          ∧ w1.info.Conn = some (V.Session db) ∧ w1.inits = wp.inits + 1)
    ∧ (match V.Open (sqlite3.dsn cfs) ws.inits with
      | .error _ =>
        sqlite3.CheckAndReturnConn V ws = some (none, ⟨⟨some cfs, none⟩, ws.inits + 1⟩)
          ∧ ∃ r w2, sqlite3.CheckAndReturnConn V ⟨⟨some cfs, none⟩, ws.inits + 1⟩ = some (r, w2)
            ∧ w2.inits = ws.inits + 2
      | .ok db =>
        ∃ w1, sqlite3.CheckAndReturnConn V ws = some (some (V.Session db), w1)
          ∧ w1.info.Conn = some (V.Session db) ∧ w1.inits = ws.inits + 1) := by
  constructor
  · cases ho : V.Open (postgres.dsn cfp) wp.inits with
    | error e =>
      refine ⟨postgres.CheckAndReturnConn_open_fails_pg V wp cfp e hp hpc ho, ?_⟩
      exact postgres.CheckAndReturnConn_absent_inits_pg V ⟨⟨some cfp, none⟩, wp.inits + 1⟩ cfp
        rfl rfl
    | ok db => exact postgres.CheckAndReturnConn_after_open_pg V wp cfp db hp hpc ho
  · cases ho : V.Open (sqlite3.dsn cfs) ws.inits with
    | error e =>
      refine ⟨sqlite3.CheckAndReturnConn_open_fails_sqlite V ws cfs e hs hsc ho, ?_⟩
      exact sqlite3.CheckAndReturnConn_absent_inits_sqlite V ⟨⟨some cfs, none⟩, ws.inits + 1⟩ cfs
        rfl rfl
    | ok db => exact sqlite3.CheckAndReturnConn_after_open_sqlite V ws cfs db hs hsc ho

theorem CheckAndReturnConn_absent_conn_witness :
    (postgres.CheckAndReturnConn gorm.Vendor.down ⟨⟨some postgres.getMysqlConfig, none⟩, 0⟩
        = some (none, ⟨⟨some postgres.getMysqlConfig, none⟩, 1⟩)
      ∧ ∃ r w2, postgres.CheckAndReturnConn gorm.Vendor.down
            ⟨⟨some postgres.getMysqlConfig, none⟩, 1⟩ = some (r, w2) ∧ w2.inits = 2)
    ∧ (sqlite3.CheckAndReturnConn gorm.Vendor.down ⟨⟨some sqlite3.getDbConfig, none⟩, 0⟩
        = some (none, ⟨⟨some sqlite3.getDbConfig, none⟩, 1⟩)
      ∧ ∃ r w2, sqlite3.CheckAndReturnConn gorm.Vendor.down
            ⟨⟨some sqlite3.getDbConfig, none⟩, 1⟩ = some (r, w2) ∧ w2.inits = 2) :=
  CheckAndReturnConn_absent_conn gorm.Vendor.down
    ⟨⟨some postgres.getMysqlConfig, none⟩, 0⟩ postgres.getMysqlConfig
    ⟨⟨some sqlite3.getDbConfig, none⟩, 0⟩ sqlite3.getDbConfig rfl rfl rfl rfl

/-- C10, in both packages: with a cached handle that is present and carries no
error, `CheckAndReturnConn` returns that handle, and the state is unchanged:
`Conn`, the configuration, and the count of `InitConnect` calls. -/
theorem CheckAndReturnConn_healthy_conn (V : gorm.Vendor)
    (wp : postgres.World) (ws : sqlite3.World) (dbp dbs : gorm.DB)
    (hp : wp.info.Conn = some dbp) (_hpe : dbp.Error = none)
    (hs : ws.info.Conn = some dbs) (_hse : dbs.Error = none) :
    postgres.CheckAndReturnConn V wp = some (some dbp, wp)
      ∧ sqlite3.CheckAndReturnConn V ws = some (some dbs, ws) :=
  ⟨postgres.CheckAndReturnConn_present_pg V wp dbp hp,
    sqlite3.CheckAndReturnConn_present_sqlite V ws dbs hs⟩

theorem CheckAndReturnConn_healthy_conn_witness :
    postgres.CheckAndReturnConn gorm.Vendor.up ⟨⟨some postgres.getMysqlConfig, some ⟨1, none⟩⟩, 1⟩
        = some (some ⟨1, none⟩, ⟨⟨some postgres.getMysqlConfig, some ⟨1, none⟩⟩, 1⟩)
      ∧ sqlite3.CheckAndReturnConn gorm.Vendor.up ⟨⟨some sqlite3.getDbConfig, some ⟨1, none⟩⟩, 1⟩
        = some (some ⟨1, none⟩, ⟨⟨some sqlite3.getDbConfig, some ⟨1, none⟩⟩, 1⟩) :=
  CheckAndReturnConn_healthy_conn gorm.Vendor.up _ _ ⟨1, none⟩ ⟨1, none⟩ rfl rfl rfl rfl

/-! ## The pool states a run passes through -/

namespace mongo

theorem modify?_size (cp cp1 : ClientPool) (i : Nat) (f : mongoData → mongoData)
    (h : cp.modify? i f = some cp1) : cp1.size = cp.size := by
  unfold ClientPool.modify? at h
  split at h
  · cases h; rfl
  · cases h

theorem allocateToPool_ge (env : Dial) (w : World) (pos : Nat) (hp : ¬ pos < MaxConnection) :
    allocateToPool env w pos = none := by
  unfold allocateToPool connect
  cases env w.dials <;> simp [ClientPool.modify?, hp]

theorem allocateToPool_size (env : Dial) (w w1 : World) (pos : Nat) (r : Option String)
    (h : allocateToPool env w pos = some (r, w1)) : w1.cp.size = w.cp.size := by
  by_cases hp : pos < MaxConnection
  · cases hc : env w.dials with
    | ok c =>
      rw [allocateToPool_ok env w pos c hp hc] at h
      cases h; rfl
    | error e =>
      rw [allocateToPool_error env w pos e hp hc] at h
      cases h; rfl
  · rw [allocateToPool_ge env w pos hp] at h
    cases h

/-- The method `allocateToPool` returns for every index of the array. -/
theorem allocateToPool_returns (env : Dial) (w : World) (pos : Nat) (hp : pos < MaxConnection) :
    ∃ r w1, allocateToPool env w pos = some (r, w1) := by
  cases hc : env w.dials with
  | ok c => exact ⟨_, _, allocateToPool_ok env w pos c hp hc⟩
  | error e => exact ⟨_, _, allocateToPool_error env w pos e hp hc⟩

theorem initLoop_size (env : Dial) (n : Nat) : ∀ (i : Nat) (w w1 : World),
    initLoop env n i w = some w1 → w1.cp.size = w.cp.size := by
  induction n with
  | zero =>
    intro i w w1 h
    simp only [initLoop] at h
    cases h; rfl
  | succ n ih =>
    intro i w w1 h
    simp only [initLoop] at h
    cases ha : allocateToPool env w i with
    | none => rw [ha] at h; cases h
    | some rw1 =>
      obtain ⟨r, w2⟩ := rw1
      have hs := allocateToPool_size env w w2 i r ha
      rw [ha] at h
      cases r with
      | some e =>
        simp only at h
        cases h; exact hs
      | none =>
        simp only at h
        cases hm : w2.cp.modify? i (fun d => { d with flag := false }) with
        | none => rw [hm] at h; cases h
        | some cp1 =>
          rw [hm] at h
          simp only at h
          have h3 := ih (i + 1) _ w1 h
          have h4 := modify?_size _ _ _ _ hm
          simp only at h3
          omega

/-- The loop of `init` runs to its end without a panic: every index it
writes is below `MaxConnection`. -/
theorem initLoop_returns (env : Dial) (n : Nat) : ∀ (i : Nat) (w : World),
    i + n ≤ MaxConnection → ∃ w1, initLoop env n i w = some w1 := by
  induction n with
  | zero => intro i w _; exact ⟨w, rfl⟩
  | succ n ih =>
    intro i w hle
    have hi : i < MaxConnection := by omega
    obtain ⟨r, w2, ha⟩ := allocateToPool_returns env w i hi
    simp only [initLoop, ha]
    cases r with
    | some e => exact ⟨w2, rfl⟩
    | none =>
      simp only [modify?_lt _ i _ hi]
      exact ih (i + 1) _ (by omega)

/-- The function `init` returns, whatever `mongo.Connect` does, and leaves
`cp.size` at zero. -/
theorem init_returns (env : Dial) : ∃ w, init env World.start = some w ∧ w.cp.size = 0 := by
  obtain ⟨w, hw⟩ := initLoop_returns env (max InitialConnection MaxConnection) 0 World.start
    (by decide)
  exact ⟨w, hw, initLoop_size env _ 0 World.start w hw⟩

/-- The scan of `GetClient` stays inside the array when `size` is at most
`MaxConnection`. -/
theorem scanLoop_returns (cp : ClientPool) (n : Nat) : ∀ i : Nat, i + n ≤ MaxConnection →
    ∃ r, scanLoop cp n i = some r := by
  induction n with
  | zero => intro i _; exact ⟨none, rfl⟩
  | succ n ih =>
    intro i hle
    have hi : i < MaxConnection := by omega
    simp only [scanLoop, get?_lt cp i hi]
    split
    · exact ⟨_, rfl⟩
    · exact ih (i + 1) (by omega)

theorem GetClient_size (env : Dial) (w w1 : World) (r : Except String Nat)
    (h : GetClient env w = some (r, w1)) (hs : w.cp.size ≤ MaxConnection) :
    w1.cp.size ≤ MaxConnection := by
  unfold GetClient at h
  split at h
  · cases h
  · cases h; exact hs
  · split at h
    · rename_i hlt
      split at h
      · cases h
      · rename_i e w2 ha
        cases h
        rw [allocateToPool_size env w _ _ _ ha]; exact hs
      · rename_i w2 ha
        cases h
        have := allocateToPool_size env w _ _ _ ha
        simp only
        omega
    · cases h; exact hs

theorem GetClient_returns (env : Dial) (w : World) (hs : w.cp.size ≤ MaxConnection) :
    ∃ r w1, GetClient env w = some (r, w1) := by
  have hs10 : w.cp.size ≤ 10 := hs
  obtain ⟨r, hr⟩ := scanLoop_returns w.cp (w.cp.size - 1) 1
    (show 1 + (w.cp.size - 1) ≤ 10 by omega)
  unfold GetClient
  rw [hr]
  cases r with
  | some i => exact ⟨_, _, rfl⟩
  | none =>
    simp only
    split
    · rename_i hlt
      obtain ⟨e, w2, ha⟩ := allocateToPool_returns env w w.cp.size hlt
      rw [ha]
      cases e <;> exact ⟨_, _, rfl⟩
    · exact ⟨_, _, rfl⟩

theorem ReleaseClient_size (c : mongoData) (w w1 : World) (h : ReleaseClient c w = some w1) :
    w1.cp.size = w.cp.size := by
  unfold ReleaseClient at h
  split at h
  · cases h
  · rename_i cp1 hp
    cases h
    exact modify?_size _ _ _ _ hp

theorem Reach_size (env : Dial) (w : World) (h : Reach env w) : w.cp.size ≤ MaxConnection := by
  induction h with
  | init h0 =>
    have := initLoop_size env _ 0 World.start _ h0
    rw [this]; decide
  | get _ hg ih => exact GetClient_size env _ _ _ hg ih
  | release c _ hr ih => rw [ReleaseClient_size c _ _ hr]; exact ih

theorem scanLoop_hit_lt (cp : ClientPool) (n : Nat) : ∀ i k : Nat,
    scanLoop cp n i = some (some k) → k < MaxConnection := by
  induction n with
  | zero => intro i k h; simp [scanLoop] at h
  | succ n ih =>
    intro i k h
    by_cases hi : i < MaxConnection
    · simp only [scanLoop, get?_lt cp i hi] at h
      split at h
      · cases h; exact hi
      · exact ih (i + 1) k h
    · simp [scanLoop, ClientPool.get?, hi] at h

theorem GetClient_slot_lt (env : Dial) (w w1 : World) (i : Nat)
    (h : GetClient env w = some (.ok i, w1)) : i < MaxConnection := by
  unfold GetClient at h
  split at h
  · cases h
  · rename_i k hk
    cases h
    exact scanLoop_hit_lt _ _ _ _ hk
  · split at h
    · rename_i hlt
      split at h
      · cases h
      · cases h
      · rename_i w2 ha
        cases h
        rw [allocateToPool_size env w _ _ _ ha]; exact hlt
    · cases h

/-- C15: in every state a run passes through (after `init`, and after any
`GetClient` or `ReleaseClient` call, whatever `mongo.Connect` does), `size`
is at most `MaxConnection`; `GetClient` returns there without an index out of
range, and a slot it returns lies below `MaxConnection`. -/
theorem Reach_size_le_MaxConnection (env : Dial) (w : World) (h : Reach env w) :
    w.cp.size ≤ MaxConnection
      ∧ (∃ r w1, GetClient env w = some (r, w1))
      ∧ ∀ i w1, GetClient env w = some (.ok i, w1) → i < MaxConnection :=
  ⟨Reach_size env w h, GetClient_returns env w (Reach_size env w h),
    fun i w1 hg => GetClient_slot_lt env w w1 i hg⟩

theorem Reach_size_le_MaxConnection_witness :
    ∃ w0, init dialOk World.start = some w0
      ∧ w0.cp.size ≤ MaxConnection
      ∧ (∃ r w1, GetClient dialOk w0 = some (r, w1))
      ∧ ∀ i w1, GetClient dialOk w0 = some (.ok i, w1) → i < MaxConnection :=
  ⟨_, rfl, Reach_size_le_MaxConnection dialOk _ (Reach.init rfl)⟩

/-- C16, in the state `init` leaves when every connect succeeds: all ten slots
hold a client while `size` is 0, because `init` calls `allocateToPool` for
the indices 0 to 9 and never writes `cp.size`. -/
theorem init_allocates_beyond_size :
    ∃ w0, init dialOk World.start = some w0
      ∧ Reach dialOk w0
      ∧ w0.cp.size = 0
      ∧ w0.cp.allocated = 10 :=
  ⟨_, rfl, Reach.init rfl, rfl, rfl⟩

/-- C17, from the state `init` leaves when every connect succeeds: slot 0
holds the client 0; the first `GetClient` takes the growth path at index
`size = 0` and replaces it with the client 10. -/
theorem GetClient_replaces_client_of_init :
    ∃ w0 w1, init dialOk World.start = some w0
      ∧ w0.cp.get? 0 = some ⟨some 0, 0, false⟩
      ∧ GetClient dialOk w0 = some (.ok 0, w1)
      ∧ w1.cp.get? 0 = some ⟨some 10, 0, true⟩ :=
  ⟨_, _, rfl, rfl, rfl, rfl⟩

end mongo

/-! ## The registry of service pools -/

namespace grpc

/-- The fast path: an entry that holds a pool is returned, the state is
untouched. -/
theorem LoadServicePool_valid (F : Factory) (all : List (String × ConfigItem)) (name : String)
    (w : World) (p : Nat) (h : w.grpcServiceMap name = some (some p)) :
    LoadServicePool F all name w = ((some p, none), w) := by
  simp [LoadServicePool, lookupValid, h]

/-- With no entry under the name and no configuration for it, the call fails
and the state is untouched. -/
theorem LoadServicePool_absent_unconfigured (F : Factory) (all : List (String × ConfigItem))
    (name : String) (w : World) (h : w.grpcServiceMap name = none)
    (hc : GetGrpcHostByServiceName all name = none) :
    LoadServicePool F all name w = ((none, some "get grpc config error"), w) := by
  simp [LoadServicePool, lookupValid, h, hc]

/-- With no pool under the name (no entry, or a nil entry) and a
configuration for it, the call deletes the entry, calls `CreatePoll` once and
stores the pool it gives. -/
theorem LoadServicePool_create (F : Factory) (all : List (String × ConfigItem)) (name : String)
    (w : World) (value : ConfigItem) (h : ∀ p, w.grpcServiceMap name ≠ some (some p))
    (hc : GetGrpcHostByServiceName all name = some value) :
    ∃ w1, (LoadServicePool F all name w).2 = w1
      ∧ (∀ n, n ≠ name → w1.grpcServiceMap n = w.grpcServiceMap n)
      ∧ w1.calls = w.calls ++ [(NewServiceGrpcConfig name value.Address Second value.Init
          value.Idle value.Capacity, F (NewServiceGrpcConfig name value.Address Second value.Init
          value.Idle value.Capacity) w.calls.length)]
      ∧ (match F (NewServiceGrpcConfig name value.Address Second value.Init
          value.Idle value.Capacity) w.calls.length with
        | .ok p => (LoadServicePool F all name w).1 = (some p, none)
            ∧ w1.grpcServiceMap name = some (some p)
        | .error e => (LoadServicePool F all name w).1 = (none, some e)
            ∧ w1.grpcServiceMap name = none) := by
  refine ⟨_, rfl, ?_, ?_, ?_⟩
  · intro n hn
    cases hm : w.grpcServiceMap name with
    | none =>
      cases hf : F (NewServiceGrpcConfig name value.Address Second value.Init
          value.Idle value.Capacity) w.calls.length <;>
        simp [LoadServicePool, lookupValid, hm, hc, CreatePoll, hf, Function.update_noteq hn]
    | some v =>
      cases v with
      | some p => exact absurd hm (h p)
      | none =>
        cases hf : F (NewServiceGrpcConfig name value.Address Second value.Init
            value.Idle value.Capacity) w.calls.length <;>
          simp [LoadServicePool, lookupValid, hm, hc, CreatePoll, hf, Function.update_noteq hn]
  · cases hm : w.grpcServiceMap name with
    | none =>
      cases hf : F (NewServiceGrpcConfig name value.Address Second value.Init
          value.Idle value.Capacity) w.calls.length <;>
        simp [LoadServicePool, lookupValid, hm, hc, CreatePoll, hf]
    | some v =>
      cases v with
      | some p => exact absurd hm (h p)
      | none =>
        cases hf : F (NewServiceGrpcConfig name value.Address Second value.Init
            value.Idle value.Capacity) w.calls.length <;>
          simp [LoadServicePool, lookupValid, hm, hc, CreatePoll, hf]
  · cases hm : w.grpcServiceMap name with
    | none =>
      cases hf : F (NewServiceGrpcConfig name value.Address Second value.Init
          value.Idle value.Capacity) w.calls.length <;>
        simp [LoadServicePool, lookupValid, hm, hc, CreatePoll, hf]
    | some v =>
      cases v with
      | some p => exact absurd hm (h p)
      | none =>
        cases hf : F (NewServiceGrpcConfig name value.Address Second value.Init
            value.Idle value.Capacity) w.calls.length <;>
          simp [LoadServicePool, lookupValid, hm, hc, CreatePoll, hf]

/-- With no pool under the name and no configuration for it, the call fails,
calls no `CreatePoll`, and leaves no entry under the name. -/
theorem LoadServicePool_unconfigured_step (F : Factory) (all : List (String × ConfigItem))
    (name : String) (w : World) (h : ∀ p, w.grpcServiceMap name ≠ some (some p))
    (hc : GetGrpcHostByServiceName all name = none) :
    (LoadServicePool F all name w).1 = (none, some "get grpc config error")
      ∧ (LoadServicePool F all name w).2.calls = w.calls
      ∧ (LoadServicePool F all name w).2.grpcServiceMap name = none
      ∧ ∀ n, n ≠ name →
          (LoadServicePool F all name w).2.grpcServiceMap n = w.grpcServiceMap n := by
  cases hm : w.grpcServiceMap name with
  | none =>
    rw [LoadServicePool_absent_unconfigured F all name w hm hc]
    exact ⟨rfl, rfl, hm, fun _ _ => rfl⟩
  | some v =>
    cases v with
    | some p => exact absurd hm (h p)
    | none =>
      refine ⟨?_, ?_, ?_, ?_⟩
      · simp [LoadServicePool, lookupValid, hm, hc]
      · simp [LoadServicePool, lookupValid, hm, hc]
      · simp [LoadServicePool, lookupValid, hm, hc]
      · intro n hn
        simp [LoadServicePool, lookupValid, hm, hc, Function.update_noteq hn]

/-- A property of the state that every `LoadServicePool` call keeps holds
after any sequence of calls. -/
theorem loadAll_keeps (F : Factory) (all : List (String × ConfigItem)) (P : World → Prop)
    (hstep : ∀ (w : World) (m : String), P w → P (LoadServicePool F all m w).2) :
    ∀ (names : List String) (w : World), P w → P (loadAll F all names w) := by
  intro names
  induction names with
  | nil => intro w hw; exact hw
  | cons m ms ih => intro w hw; exact ih _ (hstep w m hw)

/-- A call either finds a pool under its name or finds none. -/
theorem valid_or_not (w : World) (name : String) :
    (∃ p, w.grpcServiceMap name = some (some p)) ∨ ∀ p, w.grpcServiceMap name ≠ some (some p) := by
  cases hm : w.grpcServiceMap name with
  | none => right; intro p hp; cases hp
  | some v =>
    cases v with
    | some p => left; exact ⟨p, rfl⟩
    | none => right; intro p hp; cases hp

/-- Only configured names get an entry. -/
theorem LoadServicePool_keeps_configured (F : Factory) (all : List (String × ConfigItem))
    (w : World) (m : String)
    (hw : ∀ n, w.grpcServiceMap n ≠ none → GetGrpcHostByServiceName all n ≠ none) :
    ∀ n, (LoadServicePool F all m w).2.grpcServiceMap n ≠ none →
      GetGrpcHostByServiceName all n ≠ none := by
  intro n hn
  rcases valid_or_not w m with ⟨p, hp⟩ | hnv
  · rw [LoadServicePool_valid F all m w p hp] at hn
    exact hw n hn
  · cases hc : GetGrpcHostByServiceName all m with
    | none =>
      obtain ⟨_, _, hself, hother⟩ := LoadServicePool_unconfigured_step F all m w hnv hc
      by_cases hnm : n = m
      · subst hnm; exact absurd hself hn
      · rw [hother n hnm] at hn; exact hw n hn
    | some value =>
      obtain ⟨w1, hw1, hother, _, _⟩ := LoadServicePool_create F all m w value hnv hc
      by_cases hnm : n = m
      · subst hnm; rw [hc]; intro h; cases h
      · rw [hw1, hother n hnm] at hn; exact hw n hn

/-- C11: in every state reached from the empty map by `LoadServicePool`
calls, a call for a name without configuration returns no pool and the error
"get grpc config error", and the state is the one before the call: no
`CreatePoll` call is added, and the map has no entry for the name. -/
theorem LoadServicePool_unconfigured (F : Factory) (all : List (String × ConfigItem))
    (names : List String) (name : String)
    (hc : GetGrpcHostByServiceName all name = none) :
    LoadServicePool F all name (loadAll F all names World.start)
        = ((none, some "get grpc config error"), loadAll F all names World.start)
      ∧ (loadAll F all names World.start).grpcServiceMap name = none := by
  have hinv := loadAll_keeps F all
    (fun w => ∀ n, w.grpcServiceMap n ≠ none → GetGrpcHostByServiceName all n ≠ none)
    (fun w m hw => LoadServicePool_keeps_configured F all w m hw) names World.start
    (fun n hn => absurd rfl hn)
  have habs : (loadAll F all names World.start).grpcServiceMap name = none := by
    by_contra hne
    exact hinv name hne hc
  exact ⟨LoadServicePool_absent_unconfigured F all name _ habs hc, habs⟩

theorem LoadServicePool_unconfigured_witness :
    GetGrpcHostByServiceName allGrpc "order" = none
      ∧ LoadServicePool factoryOk allGrpc "order"
          (loadAll factoryOk allGrpc ["user", "order", "user"] World.start)
        = ((none, some "get grpc config error"),
          loadAll factoryOk allGrpc ["user", "order", "user"] World.start)
      ∧ (loadAll factoryOk allGrpc ["user", "order", "user"] World.start).grpcServiceMap "order"
        = none :=
  ⟨by decide, LoadServicePool_unconfigured factoryOk allGrpc ["user", "order", "user"] "order"
    (by decide)⟩

/-- A call that returns a pool leaves that pool under its name. -/
theorem LoadServicePool_result_stored (F : Factory) (all : List (String × ConfigItem))
    (name : String) (w : World) (p : Nat)
    (h : (LoadServicePool F all name w).1 = (some p, none)) :
    (LoadServicePool F all name w).2.grpcServiceMap name = some (some p) := by
  rcases valid_or_not w name with ⟨q, hq⟩ | hnv
  · rw [LoadServicePool_valid F all name w q hq] at h ⊢
    simp only [Prod.mk.injEq, Option.some.injEq, and_true] at h
    rw [← h]; exact hq
  · cases hc : GetGrpcHostByServiceName all name with
    | none =>
      have h1 := (LoadServicePool_unconfigured_step F all name w hnv hc).1
      rw [h1] at h
      cases h
    | some value =>
      obtain ⟨w1, hw1, _, _, hres⟩ := LoadServicePool_create F all name w value hnv hc
      rw [hw1]
      cases hf : F (NewServiceGrpcConfig name value.Address Second value.Init
          value.Idle value.Capacity) w.calls.length with
      | ok q =>
        rw [hf] at hres
        simp only at hres
        rw [hres.1] at h
        simp only [Prod.mk.injEq, Option.some.injEq, and_true] at h
        rw [← h]; exact hres.2
      | error e =>
        rw [hf] at hres
        simp only at hres
        rw [hres.1] at h
        cases h

/-- A pool stored under a name stays there through any call. -/
theorem LoadServicePool_keeps_pool (F : Factory) (all : List (String × ConfigItem))
    (name : String) (p : Nat) (w : World) (m : String)
    (h : w.grpcServiceMap name = some (some p)) :
    (LoadServicePool F all m w).2.grpcServiceMap name = some (some p) := by
  rcases valid_or_not w m with ⟨q, hq⟩ | hnv
  · rw [LoadServicePool_valid F all m w q hq]; exact h
  · have hne : name ≠ m := by
      intro he; subst he; exact hnv p h
    cases hc : GetGrpcHostByServiceName all m with
    | none =>
      rw [(LoadServicePool_unconfigured_step F all m w hnv hc).2.2.2 name hne]; exact h
    | some value =>
      obtain ⟨w1, hw1, hother, _, _⟩ := LoadServicePool_create F all m w value hnv hc
      rw [hw1, hother name hne]; exact h

theorem successes_append (n : String) (calls : List (ServiceGrpcPoolConfig × Except String Nat))
    (c : ServiceGrpcPoolConfig) (r : Except String Nat) :
    successes n (calls ++ [(c, r)]) = successes n calls +
      (if c.serviceName = n then (match r with | .ok _ => 1 | .error _ => 0) else 0) := by
  unfold successes
  rw [List.filter_append, List.length_append]
  congr 1
  by_cases hn : c.serviceName = n
  · have hb : (c.serviceName == n) = true := by simp [hn]
    cases r <;> simp [List.filter, hn, hb]
  · have hb : (c.serviceName == n) = false := by simp [hn]
    cases r <;> simp [List.filter, hn, hb]

/-- The invariant behind "at most once": for each name, either no
`CreatePoll` for it has returned a pool, or exactly one has and a pool is
stored under the name. -/
theorem LoadServicePool_keeps_once (F : Factory) (all : List (String × ConfigItem))
    (w : World) (m : String)
    (hw : ∀ n, successes n w.calls = 0 ∨
      (successes n w.calls = 1 ∧ ∃ p, w.grpcServiceMap n = some (some p))) :
    ∀ n, successes n (LoadServicePool F all m w).2.calls = 0 ∨
      (successes n (LoadServicePool F all m w).2.calls = 1
        ∧ ∃ p, (LoadServicePool F all m w).2.grpcServiceMap n = some (some p)) := by
  intro n
  rcases valid_or_not w m with ⟨q, hq⟩ | hnv
  · rw [LoadServicePool_valid F all m w q hq]; exact hw n
  · have hm0 : successes m w.calls = 0 := by
      rcases hw m with h0 | ⟨_, p, hp⟩
      · exact h0
      · exact absurd hp (hnv p)
    cases hc : GetGrpcHostByServiceName all m with
    | none =>
      obtain ⟨_, hcalls, _, hother⟩ := LoadServicePool_unconfigured_step F all m w hnv hc
      rw [hcalls]
      by_cases hnm : n = m
      · subst hnm; exact Or.inl hm0
      · rw [hother n hnm]; exact hw n
    | some value =>
      obtain ⟨w1, hw1, hother, hcalls, hres⟩ := LoadServicePool_create F all m w value hnv hc
      rw [hw1, hcalls, successes_append]
      have hname : (NewServiceGrpcConfig m value.Address Second value.Init value.Idle
          value.Capacity).serviceName = m := rfl
      rw [hname]
      by_cases hnm : n = m
      · subst hnm
        rw [if_pos rfl, hm0]
        cases hf : F (NewServiceGrpcConfig n value.Address Second value.Init
            value.Idle value.Capacity) w.calls.length with
        | ok q =>
          rw [hf] at hres
          exact Or.inr ⟨rfl, q, hres.2⟩
        | error e => exact Or.inl rfl
      · rw [if_neg (fun h => hnm h.symm), hother n hnm, Nat.add_zero]
        exact hw n

/-- C12: once a call for a name, made in a state reached from the empty map,
has returned the pool `p`, a later call for that name, after any further
calls, returns `p` again and the state is the one before that call (no
`CreatePoll` call added, the map as it was); and in every state reached from
the empty map, for every name, at most one `CreatePoll` call for it has
returned a pool. -/
theorem LoadServicePool_reuses_pool (F : Factory) (all : List (String × ConfigItem))
    (before between : List String) (name : String) (p : Nat)
    (h : (LoadServicePool F all name (loadAll F all before World.start)).1 = (some p, none)) :
    LoadServicePool F all name
        (loadAll F all between (LoadServicePool F all name (loadAll F all before World.start)).2)
      = ((some p, none),
        loadAll F all between (LoadServicePool F all name (loadAll F all before World.start)).2)
    ∧ ∀ (names : List String) (n : String),
        successes n (loadAll F all names World.start).calls ≤ 1 := by
  constructor
  · apply LoadServicePool_valid
    exact loadAll_keeps F all (fun w => w.grpcServiceMap name = some (some p))
      (fun w m hw => LoadServicePool_keeps_pool F all name p w m hw) between _
      (LoadServicePool_result_stored F all name _ p h)
  · intro names n
    have hinv := loadAll_keeps F all
      (fun w => ∀ n, successes n w.calls = 0 ∨
        (successes n w.calls = 1 ∧ ∃ p, w.grpcServiceMap n = some (some p)))
      (fun w m hw => LoadServicePool_keeps_once F all w m hw) names World.start
      (fun _ => Or.inl rfl)
    rcases hinv n with h0 | ⟨h1, _⟩
    · omega
    · omega

theorem LoadServicePool_reuses_pool_witness :
    (LoadServicePool factoryOk allGrpc "user" (loadAll factoryOk allGrpc ["order"] World.start)).1
        = (some 0, none)
      ∧ LoadServicePool factoryOk allGrpc "user"
          (loadAll factoryOk allGrpc ["order", "user"]
            (LoadServicePool factoryOk allGrpc "user"
              (loadAll factoryOk allGrpc ["order"] World.start)).2)
        = ((some 0, none),
          loadAll factoryOk allGrpc ["order", "user"]
            (LoadServicePool factoryOk allGrpc "user"
              (loadAll factoryOk allGrpc ["order"] World.start)).2)
      ∧ ∀ (names : List String) (n : String),
          successes n (loadAll factoryOk allGrpc names World.start).calls ≤ 1 :=
  ⟨by decide, LoadServicePool_reuses_pool factoryOk allGrpc ["order"] ["order", "user"] "user" 0
    (by decide)⟩

/-- C13: when the entry under a configured name is the nil interface value,
`LoadServicePool` deletes the entry and calls `CreatePoll` once; when that
gives the pool `p`, `p` is stored under the name and returned with a nil
error; when it fails, the error is returned and the name has no entry.  The
entries of the other names are untouched. -/
theorem LoadServicePool_rebuilds_nil_entry (F : Factory) (all : List (String × ConfigItem))
    (w : World) (name : String) (value : ConfigItem)
    (hnil : w.grpcServiceMap name = some none)
    (hc : GetGrpcHostByServiceName all name = some value) :
    (lookupValid name w).2.grpcServiceMap name = none
      ∧ ∃ w1, (LoadServicePool F all name w).2 = w1
        ∧ (∀ n, n ≠ name → w1.grpcServiceMap n = w.grpcServiceMap n)
        ∧ w1.calls = w.calls ++ [(NewServiceGrpcConfig name value.Address Second value.Init
            value.Idle value.Capacity, F (NewServiceGrpcConfig name value.Address Second
            value.Init value.Idle value.Capacity) w.calls.length)]
        ∧ (match F (NewServiceGrpcConfig name value.Address Second value.Init
            value.Idle value.Capacity) w.calls.length with
          | .ok p => (LoadServicePool F all name w).1 = (some p, none)
              ∧ w1.grpcServiceMap name = some (some p)
          | .error e => (LoadServicePool F all name w).1 = (none, some e)
              ∧ w1.grpcServiceMap name = none) := by
  constructor
  · simp [lookupValid, hnil]
  · exact LoadServicePool_create F all name w value (fun p hp => by rw [hnil] at hp; cases hp) hc

theorem LoadServicePool_rebuilds_nil_entry_witness :
    (lookupValid "user" World.nilUser).2.grpcServiceMap "user" = none
      ∧ ∃ w1, (LoadServicePool factoryOk allGrpc "user" World.nilUser).2 = w1
        ∧ (∀ n, n ≠ "user" → w1.grpcServiceMap n = World.nilUser.grpcServiceMap n)
        ∧ w1.calls = World.nilUser.calls ++ [(NewServiceGrpcConfig "user" "host:port" Second 5 5 5,
            .ok 0)]
        ∧ (LoadServicePool factoryOk allGrpc "user" World.nilUser).1 = (some 0, none)
        ∧ w1.grpcServiceMap "user" = some (some 0) :=
  LoadServicePool_rebuilds_nil_entry factoryOk allGrpc World.nilUser "user"
    ⟨"user", "host:port", 5, 5, 5⟩ (by decide) (by decide)

end grpc

/-! ## The base-54 code -/

namespace code

/-- The 54 symbols of `base` are pairwise distinct. -/
theorem base_nodup : base.Nodup := by decide

theorem base_get? : ∀ k, k < 54 → base.get? k = some (String.mk [symbols.getD k '2']) := by
  decide

set_option maxRecDepth 100000 in
theorem symbols_getD_inj : ∀ i, i < 54 → ∀ j, j < 54 →
    symbols.getD i '2' = symbols.getD j '2' → i = j := by
  decide

theorem baseAt_nat (k : Nat) (hk : k < 54) :
    baseAt (k : Int) = some (String.mk [symbols.getD k '2']) := by
  simp only [baseAt, Int.toNat_ofNat, Int.ofNat_nonneg, if_true]
  exact base_get? k hk

theorem baseAt_neg (x : Int) (hx : x < 0) : baseAt x = none := by
  simp [baseAt, not_le.mpr hx]

theorem mk_append_single (l : List Char) (c : Char) :
    String.mk l ++ String.mk [c] ++ "" = String.mk (l ++ [c]) := by
  rw [String.append_empty]; rfl

theorem code_nat (n : Nat) : code (n : Int) "" = some (String.mk (digitString n)) := by
  induction n using Nat.strong_induction_on with
  | _ n ih =>
    have hmod : Int.tmod (n : Int) 54 = ((n % 54 : Nat) : Int) := (Int.ofNat_tmod n 54).symm
    have hdiv : Int.tdiv (n : Int) 54 = ((n / 54 : Nat) : Int) := (Int.ofNat_tdiv n 54).symm
    rw [code, digitString]
    simp only [hmod, hdiv, baseAt_nat (n % 54) (Nat.mod_lt n (by decide))]
    by_cases h0 : n / 54 = 0
    · simp [h0]
    · have hlt : n / 54 < n := by omega
      have hne : ¬ ((n / 54 : Nat) : Int) = 0 := by omega
      simp only [hne, h0, if_false, ih (n / 54) hlt]
      rw [mk_append_single]

theorem digitString_ne_nil (n : Nat) : digitString n ≠ [] := by
  rw [digitString]
  split <;> simp

theorem digitString_inj : ∀ a b : Nat, digitString a = digitString b → a = b := by
  intro a
  induction a using Nat.strong_induction_on with
  | _ a ih =>
    intro b h
    rw [digitString, digitString.eq_1 b] at h
    have ha := Nat.mod_lt a (show 0 < 54 by decide)
    have hb := Nat.mod_lt b (show 0 < 54 by decide)
    by_cases ha0 : a / 54 = 0 <;> by_cases hb0 : b / 54 = 0
    · simp only [ha0, hb0, if_true, List.cons.injEq, and_true] at h
      have := symbols_getD_inj _ ha _ hb h
      omega
    · simp only [ha0, hb0, if_true, if_false] at h
      have h1 := List.append_inj' (show [] ++ [symbols.getD (a % 54) '2'] = _ from h) rfl
      exact absurd h1.1.symm (digitString_ne_nil _)
    · simp only [ha0, hb0, if_true, if_false] at h
      have h1 := List.append_inj' (show _ = [] ++ [symbols.getD (b % 54) '2'] from h) rfl
      exact absurd h1.1 (digitString_ne_nil _)
    · simp only [ha0, hb0, if_false] at h
      have h1 := List.append_inj' h rfl
      have hq := ih (a / 54) (by omega) (b / 54) h1.1
      have h2 : symbols.getD (a % 54) '2' = symbols.getD (b % 54) '2' := by
        simpa using h1.2
      have := symbols_getD_inj _ ha _ hb h2
      omega

theorem tmod_neg_nat (m : Nat) : Int.tmod (-(m : Int)) 54 = -((m % 54 : Nat) : Int) := by
  have hdiv : Int.tdiv (m : Int) 54 = ((m / 54 : Nat) : Int) := (Int.ofNat_tdiv m 54).symm
  rw [Int.tmod_def, Int.neg_tdiv, hdiv]
  omega

theorem tdiv_neg_nat (m : Nat) : Int.tdiv (-(m : Int)) 54 = -((m / 54 : Nat) : Int) := by
  have hdiv : Int.tdiv (m : Int) 54 = ((m / 54 : Nat) : Int) := (Int.ofNat_tdiv m 54).symm
  rw [Int.neg_tdiv, hdiv]

theorem baseAt_zero : baseAt 0 = some "2" := by decide

theorem code_neg (m : Nat) : 0 < m → code (-(m : Int)) "" = none := by
  induction m using Nat.strong_induction_on with
  | _ m ih =>
    intro hm
    rw [code]
    simp only [tmod_neg_nat, tdiv_neg_nat]
    by_cases h0 : m % 54 = 0
    · have hq : 0 < m / 54 := by omega
      have hne : ¬ (-((m / 54 : Nat) : Int)) = 0 := by omega
      simp only [h0, Nat.cast_zero, neg_zero, baseAt_zero, hne, if_false,
        ih (m / 54) (by omega) hq]
    · rw [baseAt_neg _ (by omega)]

/-- For a non-negative id, `Code` returns its base-54 digit string, most
significant digit first. -/
theorem Code_nonneg (id : Int) (h : 0 ≤ id) :
    Code id = some (String.mk (digitString id.toNat)) := by
  have hid : id = ((id.toNat : Nat) : Int) := (Int.toNat_of_nonneg h).symm
  rw [Code, hid, code_nat, Int.toNat_ofNat]

/-- For a negative id, `Code` panics. -/
theorem Code_neg (id : Int) (h : id < 0) : Code id = none := by
  have hid : id = -((id.natAbs : Nat) : Int) := by omega
  rw [Code, hid]
  exact code_neg id.natAbs (by omega)

/-- C18: `Code` is injective on the non-negative ids. -/
theorem Code_injective (a b : Int) (ha : 0 ≤ a) (hb : 0 ≤ b) (h : Code a = Code b) : a = b := by
  rw [Code_nonneg a ha, Code_nonneg b hb] at h
  have hd : digitString a.toNat = digitString b.toNat :=
    congrArg String.data (Option.some.inj h)
  have hn := digitString_inj _ _ hd
  omega

theorem Code_injective_witness :
    (0 : Int) ≤ 2024 ∧ Code 2024 = Code 2024 ∧ (2024 : Int) = 2024 :=
  ⟨by decide, rfl, Code_injective 2024 2024 (by decide) (by decide) rfl⟩

/-- C19: `Code id` returns a string exactly when `id` is non-negative, and
panics (an index into `base` out of range) exactly when `id` is negative. -/
theorem Code_returns_iff_nonneg (id : Int) :
    ((∃ s, Code id = some s) ↔ 0 ≤ id) ∧ (Code id = none ↔ id < 0) := by
  rcases lt_or_le id 0 with hneg | hpos
  · have hn := Code_neg id hneg
    refine ⟨⟨fun ⟨s, hs⟩ => ?_, fun h => ?_⟩, ⟨fun _ => hneg, fun _ => hn⟩⟩
    · rw [hn] at hs; cases hs
    · omega
  · have hp := Code_nonneg id hpos
    refine ⟨⟨fun _ => hpos, fun _ => ⟨_, hp⟩⟩, ⟨fun h => ?_, fun h => ?_⟩⟩
    · rw [hp] at h; cases h
    · omega

end code
